import Mathlib

/-!
Verification of the download-request resolution and orchestration subsystem of
the ksp_video_download repository, together with its JSON metadata-recovery
algorithm.  The Lean definitions below are shallow embeddings of the Python
source:

* `find_m3u8_url`, `processJson`   — src/ui/main_window.py, `process_json_file`
* `getFormatOptions`               — src/core/downloader.py, `_get_format_options`
* `progressHook`, `formatTime`,
  `formatSize`                     — src/core/downloader.py, `_progress_hook`,
                                     `_format_time`, `_format_size`
* `download`                       — src/core/downloader.py, `VideoDownloader.download`
* `getText`                        — src/core/localization.py, `get_text` over the
                                     in-code default tables

Modelling conventions: Python floats are modelled as rationals (ℚ); parsed JSON
objects as association structures in document order; the fetch engine
(yt-dlp, an external collaborator) as a function from the format query to the
outcome of `extract_info`; raising an exception as an `Except`/`Option` error
value.  Logging side effects are not modelled (fire-and-forget, no control
influence).
-/

namespace KSP

/-! ### JSON values

`JsonVal` mirrors a document produced by Python's `json.load`: objects keep
their fields in document order, arrays keep index order.  The field/item lists
are separate inductive types (instead of nested `List`s) so that all functions
below are structurally recursive and evaluate inside the kernel. -/

mutual

inductive JsonVal where
  | obj (fields : JFields)
  | arr (items : JItems)
  | str (s : String)
  | num (q : ℚ)
  | bool (b : Bool)
  | null

inductive JFields where
  | nil
  | cons (key : String) (val : JsonVal) (rest : JFields)

inductive JItems where
  | nil
  | cons (item : JsonVal) (rest : JItems)

end

/-- Concatenation of field lists (document order preserved). -/
def JFields.append : JFields → JFields → JFields
  | .nil, g => g
  | .cons k v r, g => .cons k v (JFields.append r g)

/-- Occurrence of `pat` as a contiguous sublist of a character list. -/
def listContains (pat : List Char) : List Char → Bool
  | [] => pat.isEmpty
  | c :: t => pat.isPrefixOf (c :: t) || listContains pat t

/-- Python's `pat in s` substring test on strings. -/
def strContains (s pat : String) : Bool :=
  listContains pat.data s.data

/-- Python's `s.endswith(suffix)`. -/
def strEndsWith (s suffix : String) : Bool :=
  suffix.data.reverse.isPrefixOf s.data.reverse

/-- Index of the first occurrence of `pat` in a character list
(Python `str.find`; the absent case is `none` instead of `-1`). -/
def firstOccurIdx (pat : List Char) : List Char → Option Nat
  | [] => if pat.isEmpty then some 0 else none
  | c :: t => if pat.isPrefixOf (c :: t) then some 0 else (firstOccurIdx pat t).map (· + 1)

/-- Index of the last occurrence of character `c` (Python `str.rfind`). -/
def lastIdx (c : Char) : List Char → Option Nat
  | [] => none
  | x :: t =>
    match lastIdx c t with
    | some i => some (i + 1)
    | none => if x = c then some 0 else none

/-- `os.path.basename` for POSIX-style paths: everything after the last `/`. -/
def basename (p : String) : String :=
  match lastIdx '/' p.data with
  | none => p
  | some i => ⟨p.data.drop (i + 1)⟩

/-- The root part of `os.path.splitext`: drop the extension, where the
extension begins at the last dot of the final path component provided some
non-dot character of that component precedes it (so dotfiles keep their
name). -/
def splitextRoot (p : String) : String :=
  let s := p.data
  let sep : Int := match lastIdx '/' s with | none => -1 | some i => (i : Int)
  match lastIdx '.' s with
  | none => p
  | some di =>
    if sep < (di : Int) ∧ (List.range di).any (fun j => sep < (j : Int) ∧ s.getD j '.' ≠ '.') then
      ⟨s.take di⟩
    else p

/-- `os.path.join` for POSIX paths, two arguments, as used by the source. -/
def pathJoin (a b : String) : String :=
  if ("/").data.isPrefixOf b.data then b
  else if a = "" ∨ strEndsWith a "/" then a ++ b
  else a ++ "/" ++ b

/-! ### ManifestLocator — `process_json_file` in src/ui/main_window.py -/

mutual

/-- Embedding of the nested function `find_m3u8_url` of `process_json_file`:
recursive search for a `shakahls` key or a string containing `.m3u8`.
A falsy (`None` or `""`) recursive result makes the surrounding loop continue
with the next entry, exactly as `if result: return result` does. -/
def find_m3u8_url : JsonVal → Option String
  | .obj fields => findInObj fields
  | .arr items => findInArr items
  | _ => none

/-- The `for k, v in obj.items()` loop body of `find_m3u8_url`. -/
def findInObj : JFields → Option String
  | .nil => none
  | .cons k v rest =>
    match v with
    | .str s =>
      if k = "shakahls" then some s
      else if strContains s ".m3u8" then some s
      else findInObj rest
    | .obj f =>
      match findInObj f with
      | some r => if r ≠ "" then some r else findInObj rest
      | none => findInObj rest
    | .arr its =>
      match findInArr its with
      | some r => if r ≠ "" then some r else findInObj rest
      | none => findInObj rest
    | _ => findInObj rest

/-- The `for i, item in enumerate(obj)` loop body of `find_m3u8_url`. -/
def findInArr : JItems → Option String
  | .nil => none
  | .cons v rest =>
    match v with
    | .str s => if strContains s ".m3u8" then some s else findInArr rest
    | .obj f =>
      match findInObj f with
      | some r => if r ≠ "" then some r else findInArr rest
      | none => findInArr rest
    | .arr its =>
      match findInArr its with
      | some r => if r ≠ "" then some r else findInArr rest
      | none => findInArr rest
    | _ => findInArr rest

end

/-- Python dict lookup for the top-level `referrer` field (`data['referrer']`;
keys of a parsed JSON object are unique, so the first match suffices). -/
def lookupField : JFields → String → Option JsonVal
  | .nil, _ => none
  | .cons k v rest, key => if k = key then some v else lookupField rest key

/-- The truncation block of `process_json_file`:
`shakahls = shakahls[:m3u8_index + 5]` when the marker occurs (guarded by
`if shakahls and '.m3u8' in shakahls`), else the string is left unchanged. -/
def truncateAtM3u8 (s : String) : String :=
  if s ≠ "" ∧ strContains s ".m3u8" = true then
    match firstOccurIdx ".m3u8".data s.data with
    | some i => ⟨s.data.take (i + 5)⟩
    | none => s
  else s

/-- Python truthiness of a parsed JSON value (`bool(v)`). -/
def jsonTruthy : JsonVal → Bool
  | .obj fields => match fields with | .nil => false | .cons _ _ _ => true
  | .arr items => match items with | .nil => false | .cons _ _ => true
  | .str s => s ≠ ""
  | .num q => q ≠ 0
  | .bool b => b
  | .null => false

/-- Values that `process_json_file` applies to the referrer and URL inputs. -/
structure ManifestResult where
  referrer : Option JsonVal
  manifestUrl : Option String

/-- The tail of `process_json_file` after the search: when no truthy manifest
candidate exists the function reports "not found" and returns before applying
either field; otherwise the URL is applied, and the referrer too when truthy
(`if referrer:`). -/
def applyResult (referrer : Option JsonVal) : Option String → ManifestResult
  | some s =>
    if s = "" then { referrer := none, manifestUrl := none }
    else
      { referrer := referrer.bind (fun v => if jsonTruthy v then some v else none),
        manifestUrl := some s }
  | none => { referrer := none, manifestUrl := none }

/-- Embedding of the data-extraction part of `process_json_file`
(src/ui/main_window.py): referrer read from the top-level `referrer` field
only, manifest URL via `find_m3u8_url`, then truncated at the first `.m3u8`
marker.  A non-dict top level skips the whole extraction. -/
def processJson : JsonVal → ManifestResult
  | .obj fields =>
      applyResult (lookupField fields "referrer")
        ((find_m3u8_url (.obj fields)).map truncateAtM3u8)
  | _ => applyResult none none

/-! ### Localization — src/core/localization.py

The repository ships no `resources/locales/*.json` files, so a fresh run
builds the in-code default tables of `_create_default_translations` and uses
language `ru` (the source's fallback default).  `get_text` falls back from the
current language to `en` and finally to the key itself.  The downloader calls
`_` without kwargs and applies `.format` afterwards, so the kwargs path of
`get_text` is not exercised. -/

/-- The Russian default table written by `_create_default_translations`. -/
def ruDefault (key : String) : Option String :=
  if key = "app_title" then some "KSP Video Downloader"
  else if key = "url_label" then some "URL видео:"
  else if key = "format_label" then some "Формат:"
  else if key = "save_path_label" then some "Путь сохранения:"
  else if key = "browse_button" then some "Обзор"
  else if key = "download_button" then some "Загрузить"
  else if key = "cancel_button" then some "Отмена"
  else if key = "status_ready" then some "Готов к загрузке"
  else if key = "status_downloading" then some "Загрузка: {progress}% - {speed} - Осталось: {eta}"
  else if key = "status_complete" then some "Загрузка завершена: {filename}"
  else if key = "status_error" then some "Ошибка: {error}"
  else if key = "format_best" then some "Лучшее качество"
  else if key = "format_720p" then some "720p"
  else if key = "format_1080p" then some "1080p"
  else if key = "format_480p" then some "480p"
  else if key = "format_360p" then some "360p"
  else if key = "format_mp3" then some "MP3 (только аудио)"
  else if key = "error_invalid_url" then some "Неверный URL видео"
  else if key = "error_network" then some "Ошибка сети"
  else if key = "error_permission" then some "Ошибка доступа к файлу"
  else if key = "dialog_title_browse" then some "Выберите директорию для сохранения"
  else if key = "dialog_title_error" then some "Ошибка"
  else if key = "dialog_title_info" then some "Информация"
  else if key = "dialog_msg_complete" then some "Загрузка завершена успешно!"
  else if key = "language_changed" then
    some "Язык изменен. Приложение будет перезапущено для применения изменений."
  else if key = "language_change_error" then
    some "Ошибка при смене языка. Выбранный язык недоступен."
  else if key = "general_tab" then some "Общие"
  else if key = "kinescope_tab" then some "Kinescope"
  else if key = "language_label" then some "Язык:"
  else if key = "manual_input" then some "Ручной ввод"
  else if key = "file_input" then some "Загрузка из файла"
  else if key = "drag_drop_hint" then
    some "Перетащите JSON файл сюда или нажмите кнопку выбора"
  else if key = "select_file_button" then some "Выбрать файл"
  else if key = "referrer_label" then some "Referrer:"
  else if key = "video_url_label" then some "URL видео:"
  else if key = "filename_label" then some "Имя файла:"
  else if key = "codec_label" then some "Кодек:"
  else if key = "codec_help" then some "Справка по кодекам"
  else none

/-- The English default table written by `_create_default_translations`. -/
def enDefault (key : String) : Option String :=
  if key = "app_title" then some "KSP Video Downloader"
  else if key = "url_label" then some "Video URL:"
  else if key = "format_label" then some "Format:"
  else if key = "save_path_label" then some "Save path:"
  else if key = "browse_button" then some "Browse"
  else if key = "download_button" then some "Download"
  else if key = "cancel_button" then some "Cancel"
  else if key = "status_ready" then some "Ready to download"
  else if key = "status_downloading" then some "Downloading: {progress}% - {speed} - ETA: {eta}"
  else if key = "status_complete" then some "Download complete: {filename}"
  else if key = "status_error" then some "Error: {error}"
  else if key = "format_best" then some "Best quality"
  else if key = "format_720p" then some "720p"
  else if key = "format_1080p" then some "1080p"
  else if key = "format_480p" then some "480p"
  else if key = "format_360p" then some "360p"
  else if key = "format_mp3" then some "MP3 (audio only)"
  else if key = "error_invalid_url" then some "Invalid video URL"
  else if key = "error_network" then some "Network error"
  else if key = "error_permission" then some "File access error"
  else if key = "dialog_title_browse" then some "Select save directory"
  else if key = "dialog_title_error" then some "Error"
  else if key = "dialog_title_info" then some "Information"
  else if key = "dialog_msg_complete" then some "Download completed successfully!"
  else if key = "language_changed" then
    some "Language changed. The application will restart to apply changes."
  else if key = "language_change_error" then
    some "Error changing language. Selected language is not available."
  else if key = "general_tab" then some "General"
  else if key = "kinescope_tab" then some "Kinescope"
  else if key = "language_label" then some "Language:"
  else if key = "manual_input" then some "Manual input"
  else if key = "file_input" then some "File upload"
  else if key = "drag_drop_hint" then
    some "Drag and drop JSON file here or click select button"
  else if key = "select_file_button" then some "Select file"
  else if key = "referrer_label" then some "Referrer:"
  else if key = "video_url_label" then some "Video URL:"
  else if key = "filename_label" then some "Filename:"
  else if key = "codec_label" then some "Codec:"
  else if key = "codec_help" then some "Codec help"
  else none

/-- `Localization.get_text` without kwargs, current language `ru`:
current-language table, then the `en` table, then the key itself. -/
def getText (key : String) : String :=
  match ruDefault key with
  | some t => t
  | none =>
    match enDefault key with
    | some t => t
    | none => key

/-- Replace the first occurrence of `pat` by `rep` in a character list. -/
def substFirst (pat rep : List Char) : List Char → List Char
  | [] => []
  | c :: t =>
    if pat.isPrefixOf (c :: t) then rep ++ (c :: t).drop pat.length
    else c :: substFirst pat rep t

/-- Python's `template.format(key=v)` for the templates of this code base:
substitutes the named field.  (Each named field occurs at most once in every
template of the source tables, so replacing the first occurrence coincides
with `str.format`.) -/
def substKey (template key v : String) : String :=
  ⟨substFirst ("\x7b" ++ key ++ "\x7d").data v.data template.data⟩

/-! ### ProgressTranslator — `_progress_hook`, `_format_size`, `_format_time`

`tr` abstracts the `_` localization lookup: the translation tables are loaded
from external JSON files at run time, so the hook and the formatters are
parameterized by the lookup function; `getText` is the instance given by the
in-code default tables. -/

/-- Two's-place zero padding for the fractional part of a decimal rendering. -/
def decimalPad2 (n : ℕ) : String :=
  if n < 10 then "0" ++ toString n else toString n

/-- Rendering of Python's `f"{x:.2f}"` on the rational model of a float
(the binary float representation itself is abstracted away; the claims never
inspect these digits). -/
def format2dec (q : ℚ) : String :=
  let m : ℤ := round (q * 100)
  toString (m / 100) ++ "." ++ decimalPad2 (m % 100).toNat

/-- Rendering of Python's `f"{x:.1f}"` on the rational model of a float. -/
def format1dec (q : ℚ) : String :=
  let m : ℤ := round (q * 10)
  toString (m / 10) ++ "." ++ toString (m % 10).toNat

/-- The unit ladder loop of `_format_size`. -/
def formatSizeLoop (tr : String → String) : List String → ℚ → String
  | [], b => format2dec b ++ " " ++ tr "unit_pb"
  | u :: rest, b =>
    if b < 1024 then format2dec b ++ " " ++ u
    else formatSizeLoop tr rest (b / 1024)

/-- Embedding of `VideoDownloader._format_size`. -/
def formatSize (tr : String → String) (b : ℚ) : String :=
  formatSizeLoop tr
    [tr "unit_bytes", tr "unit_kb", tr "unit_mb", tr "unit_gb", tr "unit_tb"] b

/-- Embedding of `VideoDownloader._format_time` (seconds are the nonnegative
integers the claim ranges over; Python `divmod` is `/` and `%` on ℕ). -/
def formatTime (tr : String → String) (seconds : ℕ) : String :=
  if seconds < 60 then
    substKey (tr "time_seconds") "seconds" (toString seconds)
  else if seconds < 3600 then
    substKey (substKey (tr "time_minutes_seconds") "minutes" (toString (seconds / 60)))
      "seconds" (toString (seconds % 60))
  else
    substKey (substKey (tr "time_hours_minutes") "hours" (toString (seconds / 3600)))
      "minutes" (toString (seconds % 3600 / 60))

/-- Modelled from the spec: the time-formatting entries of the localization
table (external collaborator; the repository ships no
`resources/locales/*.json` data, and the in-code default tables lack the
`time_*` keys).  The unit labels follow the repository's own tests
(`test_format_time`); every other key resolves as in `getText`. -/
def specTimeTr (key : String) : String :=
  if key = "time_seconds" then "{seconds} сек"
  else if key = "time_minutes_seconds" then "{minutes} мин {seconds} сек"
  else if key = "time_hours_minutes" then "{hours} ч {minutes} мин"
  else getText key

/-- A raw yt-dlp progress event as consumed by `_progress_hook`.  Optional
fields model `'key' in d` / `d.get(key, 0)`; `downloaded_bytes` and
`filename` are always present on the statuses that read them. -/
structure RawEvent where
  status : String
  downloaded_bytes : ℚ
  total_bytes : Option ℚ
  total_bytes_estimate : Option ℚ
  speed : Option ℚ
  eta : Option ℕ
  filename : String
  error : Option String

/-- Python truthiness of `o.getD 0` being positive:
`'total_bytes' in d and d['total_bytes'] > 0`. -/
def posOpt : Option ℚ → Bool
  | some t => decide (0 < t)
  | none => false

/-- Embedding of the hook produced by `VideoDownloader._progress_hook`: the
single `progress_callback(percent, message)` invocation an event triggers
(`none` when the status matches no branch).  Logging is not modelled. -/
def progressHook (tr : String → String) (d : RawEvent) : Option (ℚ × String) :=
  if d.status = "downloading" then
    let percent : ℚ :=
      if posOpt d.total_bytes then
        d.downloaded_bytes / d.total_bytes.getD 0 * 100
      else if posOpt d.total_bytes_estimate then
        d.downloaded_bytes / d.total_bytes_estimate.getD 0 * 100
      else 0
    let speedStr :=
      if d.speed.getD 0 ≠ 0 then formatSize tr (d.speed.getD 0) ++ "/s" else "Неизвестно"
    let etaStr :=
      if d.eta.getD 0 ≠ 0 then formatTime tr (d.eta.getD 0) else "Неизвестно"
    let status :=
      substKey (substKey (substKey (tr "status_downloading")
        "progress" (format1dec percent)) "speed" speedStr) "eta" etaStr
    some (percent, status)
  else if d.status = "finished" then
    some (100, substKey (tr "status_processing") "filename" (basename d.filename))
  else if d.status = "error" then
    some (0, substKey (tr "status_error") "error" (d.error.getD "Неизвестная ошибка"))
  else none

/-- The percent a sink that stores the last reported value holds after an
event: the hook's reported value if the callback fired, else the prior one. -/
def percentAfter (prior : ℚ) : Option (ℚ × String) → ℚ
  | some pm => pm.1
  | none => prior

/-! ### FormatResolver — `VideoDownloader._get_format_options` -/

/-- One yt-dlp postprocessor directive. -/
structure Postprocessor where
  key : String
  preferredcodec : String
  preferredquality : String
deriving DecidableEq, Repr

/-- The format-relevant engine options returned by `_get_format_options`. -/
structure FormatOpts where
  format : String
  postprocessors : List Postprocessor
deriving DecidableEq, Repr

/-- Embedding of `VideoDownloader._get_format_options`: pure mapping from
(format_option, codec) to the format query and postprocessing directives. -/
def getFormatOptions (format_option : String) (codec : String) : FormatOpts :=
  let video_codec := if codec = "h264" then "avc" else "av01"
  if format_option = "mp3" then
    { format := "bestaudio/best",
      postprocessors := [{ key := "FFmpegExtractAudio", preferredcodec := "mp3",
                           preferredquality := "192" }] }
  else if format_option = "m4a" then
    { format := "bestaudio/best",
      postprocessors := [{ key := "FFmpegExtractAudio", preferredcodec := "m4a",
                           preferredquality := "192" }] }
  else if format_option = "720" then
    { format := "bestvideo[height<=720][vcodec*=" ++ video_codec
        ++ "]+bestaudio/best[height<=720]/bestvideo[height<=720]+bestaudio/best",
      postprocessors := [] }
  else if format_option = "1080" then
    { format := "bestvideo[height<=1080][vcodec*=" ++ video_codec
        ++ "]+bestaudio/best[height<=1080]/bestvideo[height<=1080]+bestaudio/best",
      postprocessors := [] }
  else if format_option = "480" then
    { format := "bestvideo[height<=480][vcodec*=" ++ video_codec
        ++ "]+bestaudio/best[height<=480]/bestvideo[height<=480]+bestaudio/best",
      postprocessors := [] }
  else
    { format := "bestvideo[vcodec*=" ++ video_codec ++ "]+bestaudio/bestvideo+bestaudio/best",
      postprocessors := [] }

/-! ### DownloadOrchestrator — `VideoDownloader.download`

The fetch engine is an external collaborator: one invocation
`YoutubeDL(opts).extract_info(url, download=True)` is modelled as a function
of the format query (the only option that differs between the primary and the
fallback invocation; url and the remaining options are fixed for the run).
It returns an info record, `None`, or raises. -/

/-- The info record of the engine, restricted to the field the orchestrator
reads (`info['ext']`, optional). -/
structure InfoRecord where
  ext : Option String
deriving DecidableEq, Repr

/-- The exception classes distinguished by `download`'s `except` clauses. -/
inductive PyExc where
  | extractorError (msg : String)
  | downloadError (msg : String)
  | generic (msg : String)
deriving DecidableEq, Repr

/-- The extension-correction block of `download`: if the prepared filename
does not end with `info['ext']`, splice that extension onto the splitext
root. -/
def finalizeFilename (info : InfoRecord) (filename : String) : String :=
  match info.ext with
  | some e => if strEndsWith filename e then filename else splitextRoot filename ++ "." ++ e
  | none => filename

/-- `result_file = os.path.join(output_path, os.path.basename(filename))`. -/
def resultFile (output_path filename : String) : String :=
  pathJoin output_path (basename filename)

/-- The body of one engine attempt in `download` (primary or fallback): invoke
the engine, and on an info record build the corrected result path; a `None`
info record raises `Exception(_("error_no_video_info"))` — a generic
exception. -/
def attemptBody (tr : String → String) (extract : String → Except PyExc (Option InfoRecord))
    (prepare : InfoRecord → String) (output_path fmt : String) : Except PyExc String :=
  match extract fmt with
  | .error e => .error e
  | .ok (some info) => .ok (resultFile output_path (finalizeFilename info (prepare info)))
  | .ok none => .error (.generic (tr "error_no_video_info"))

/-- Outcome of one `download` call: the value returned or the message of the
exception surfaced to the caller, plus the format queries of the engine
invocations in order. -/
structure DownloadRun where
  result : Except String String
  calls : List String
deriving Repr

/-- Embedding of `VideoDownloader.download`'s control flow (the directory
creation, option assembly and logging have no bearing on the outcome values):
try the primary format; on an `ExtractorError` whose text contains
`Requested format is not available`, retry exactly once with format `best`
inside the handler (any failure of the retry is itself caught); every failure
path raises `Exception(_("error_download_failed"))`. -/
def download (tr : String → String) (extract : String → Except PyExc (Option InfoRecord))
    (prepare : InfoRecord → String)
    (output_path format_option codec : String) : DownloadRun :=
  let fmt := (getFormatOptions format_option codec).format
  match attemptBody tr extract prepare output_path fmt with
  | .ok r => { result := .ok r, calls := [fmt] }
  | .error (.extractorError msg) =>
    if strContains msg "Requested format is not available" then
      match attemptBody tr extract prepare output_path "best" with
      | .ok r => { result := .ok r, calls := [fmt, "best"] }
      | .error _ => { result := .error (tr "error_download_failed"), calls := [fmt, "best"] }
    else { result := .error (tr "error_download_failed"), calls := [fmt] }
  | .error (.downloadError _) => { result := .error (tr "error_download_failed"), calls := [fmt] }
  | .error (.generic _) => { result := .error (tr "error_download_failed"), calls := [fmt] }

/-! ## Helper lemmas -/

/-- First match wins in the object loop: if no entry of the prefix `f1`
produces a (truthy) result, the search returns the value of the next entry
whenever that entry matches (preferred key, or marker substring). -/
theorem findInObj_append_first : ∀ (f1 f2 : JFields) (k s : String),
    findInObj f1 = none →
    (k = "shakahls" ∨ strContains s ".m3u8" = true) →
    findInObj (f1.append (.cons k (.str s) f2)) = some s
  | .nil, f2, k, s, _, h2 => by
    simp only [JFields.append, findInObj]
    rcases h2 with h | h
    · simp [h]
    · by_cases hk : k = "shakahls"
      · simp [hk]
      · simp [hk, h]
  | .cons k0 v0 rest, f2, k, s, h1, h2 => by
    have ih := fun h => findInObj_append_first rest f2 k s h h2
    simp only [JFields.append] at h1 ⊢
    cases v0 with
    | str s0 =>
      simp only [findInObj] at h1 ⊢
      split_ifs at h1 ⊢
      simp_all
    | obj f =>
      simp only [findInObj] at h1 ⊢
      cases hf : findInObj f with
      | some r =>
        simp only [hf] at h1 ⊢
        by_cases hr : r = "" <;> simp_all
      | none => simp_all
    | arr its =>
      simp only [findInObj] at h1 ⊢
      cases hf : findInArr its with
      | some r =>
        simp only [hf] at h1 ⊢
        by_cases hr : r = "" <;> simp_all
      | none => simp_all
    | num q => simp only [findInObj] at h1 ⊢; exact ih h1
    | bool b => simp only [findInObj] at h1 ⊢; exact ih h1
    | null => simp only [findInObj] at h1 ⊢; exact ih h1

/-- A string that contains `pat` has a first occurrence index. -/
theorem firstOccurIdx_of_contains (pat : List Char) (l : List Char)
    (h : listContains pat l = true) : ∃ i, firstOccurIdx pat l = some i := by
  induction l with
  | nil =>
    simp only [listContains] at h
    exact ⟨0, by simp [firstOccurIdx, h]⟩
  | cons c t ih =>
    simp only [listContains, Bool.or_eq_true] at h
    by_cases hp : pat.isPrefixOf (c :: t) = true
    · exact ⟨0, by simp [firstOccurIdx, hp]⟩
    · rcases h with h | h
      · exact absurd h hp
      · obtain ⟨i, hi⟩ := ih h
        exact ⟨i + 1, by simp [firstOccurIdx, hp, hi]⟩

/-- Truncation never turns a nonempty candidate into the empty string. -/
theorem truncateAtM3u8_ne_empty (s : String) (h : s ≠ "") : truncateAtM3u8 s ≠ "" := by
  unfold truncateAtM3u8
  split_ifs with hc
  · rcases hne : firstOccurIdx ".m3u8".data s.data with _ | i
    · simpa [hne] using h
    · simp only [hne]
      intro habs
      have hdata : s.data.take (i + 5) = [] := congrArg String.data habs
      rcases hs : s.data with _ | ⟨c, t⟩
      · exact h (by cases s; simp_all)
      · rw [hs] at hdata; simp at hdata
  · exact h

/-- Candidates without the marker pass through truncation unchanged. -/
theorem truncateAtM3u8_of_not_contains (s : String)
    (h : strContains s ".m3u8" = false) : truncateAtM3u8 s = s := by
  unfold truncateAtM3u8
  split_ifs with hc
  · exact absurd hc.2 (by simp [h])
  · rfl

/-- The manifest URL reported for an object document is the truncation of
whatever nonempty value the recursive search returned. -/
theorem processJson_manifest_eq (fields : JFields) (v : String)
    (h1 : find_m3u8_url (.obj fields) = some v) (h2 : v ≠ "") :
    (processJson (.obj fields)).manifestUrl = some (truncateAtM3u8 v) := by
  have hne := truncateAtM3u8_ne_empty v h2
  simp [processJson, h1, applyResult, hne]

/-- A referrer reported by the final application step always originates from
the (truthy) referrer value that was looked up. -/
theorem applyResult_referrer_src (r : Option JsonVal) (o : Option String) (v : JsonVal)
    (h : (applyResult r o).referrer = some v) : r = some v := by
  cases o with
  | none => simp [applyResult] at h
  | some s =>
    by_cases hs : s = ""
    · simp [applyResult, hs] at h
    · simp [applyResult, hs] at h
      cases r with
      | none => simp at h
      | some w =>
        simp at h
        simp [h.2]

/-- An `ExtractorError` outcome of an attempt comes from the engine call. -/
theorem attemptBody_extractorError (tr : String → String)
    (extract : String → Except PyExc (Option InfoRecord)) (prepare : InfoRecord → String)
    (out f m : String)
    (h : attemptBody tr extract prepare out f = .error (.extractorError m)) :
    extract f = .error (.extractorError m) := by
  unfold attemptBody at h
  cases hx : extract f with
  | error e => rw [hx] at h; simpa using h
  | ok oi =>
    rw [hx] at h
    cases oi with
    | some i => simp at h
    | none => simp at h

/-! ## Claims -/

/-- C1 counterexample: in the document
`{"a": "http://x.m3u8", "shakahls": "pref"}` the entry with the preferred key
`shakahls` holds the string `"pref"`, and the only `.m3u8` substring match
sits at the same depth; the claim says the preferred-key value is the
highest-priority match and beats the substring match at the same depth, yet
the search returns the substring match and not `"pref"`. -/
theorem c1_counterexample :
    find_m3u8_url (.obj (.cons "a" (.str "http://x.m3u8")
        (.cons "shakahls" (.str "pref") .nil))) = some "http://x.m3u8" ∧
    find_m3u8_url (.obj (.cons "a" (.str "http://x.m3u8")
        (.cons "shakahls" (.str "pref") .nil))) ≠ some "pref" := by
  constructor
  · rfl
  · decide

/-- C1 (amended): the manifest search is a depth-first traversal in stored
order and the first match visited wins, where an object entry matches when its
key is `shakahls` with a string value or when its string value contains
`.m3u8`; the `shakahls` check precedes the substring check only within the
entry under visit, so a `shakahls` entry beats every match visited after it
but not a `.m3u8` substring match visited before it, regardless of depth. -/
theorem c1_first_match_wins (f1 f2 : JFields) (k s : String)
    (h1 : findInObj f1 = none)
    (h2 : k = "shakahls" ∨ strContains s ".m3u8" = true) :
    findInObj (f1.append (.cons k (.str s) f2)) = some s ∧
    find_m3u8_url (.obj (f1.append (.cons k (.str s) f2))) = some s := by
  have h := findInObj_append_first f1 f2 k s h1 h2
  exact ⟨h, by simpa [find_m3u8_url] using h⟩

/-- C1 witness: a prefix entry that matches nothing, then a `shakahls` entry;
the search returns its value. -/
theorem c1_witness :
    find_m3u8_url (.obj (.cons "x" (.num 1)
        (.cons "shakahls" (.str "u") .nil))) = some "u" :=
  (c1_first_match_wins (.cons "x" (.num 1) .nil) .nil "shakahls" "u"
    (by decide) (Or.inl rfl)).2

/-- C5: on `{"referrer": "https://r.example", "nested": {"shakahls":
"https://cdn/x.m3u8?tok=1"}}` the locator yields referrer
`https://r.example` and manifest URL `https://cdn/x.m3u8`; in general a
reported referrer always comes from the direct top-level `referrer` field of
an object document (no deeper search), and a found candidate containing the
marker is truncated at the first `.m3u8` occurrence inclusive, dropping the
tail. -/
theorem c5_referrer_and_truncation :
    (processJson (.obj (.cons "referrer" (.str "https://r.example")
          (.cons "nested" (.obj (.cons "shakahls" (.str "https://cdn/x.m3u8?tok=1") .nil))
            .nil)))
      = { referrer := some (.str "https://r.example"),
          manifestUrl := some "https://cdn/x.m3u8" }) ∧
    (∀ (j : JsonVal) (v : JsonVal), (processJson j).referrer = some v →
      ∃ fields, j = .obj fields ∧ lookupField fields "referrer" = some v) ∧
    (∀ (fields : JFields) (v : String), find_m3u8_url (.obj fields) = some v →
      v ≠ "" → strContains v ".m3u8" = true →
      ∃ i, firstOccurIdx ".m3u8".data v.data = some i ∧
        (processJson (.obj fields)).manifestUrl = some ⟨v.data.take (i + 5)⟩) := by
  refine ⟨rfl, ?_, ?_⟩
  · intro j v h
    cases j with
    | obj fields =>
      exact ⟨fields, rfl, applyResult_referrer_src _ _ v (by simpa [processJson] using h)⟩
    | arr its => simp [processJson, applyResult] at h
    | str s => simp [processJson, applyResult] at h
    | num q => simp [processJson, applyResult] at h
    | bool b => simp [processJson, applyResult] at h
    | null => simp [processJson, applyResult] at h
  · intro fields v h1 h2 h3
    obtain ⟨i, hi⟩ := firstOccurIdx_of_contains ".m3u8".data v.data h3
    refine ⟨i, hi, ?_⟩
    rw [processJson_manifest_eq fields v h1 h2]
    unfold truncateAtM3u8
    rw [if_pos ⟨h2, h3⟩, hi]

/-- C5 witness: the general referrer and truncation parts applied to the
concrete spec document. -/
theorem c5_witness :
    (∃ fields, (JsonVal.obj (.cons "referrer" (.str "https://r.example")
          (.cons "nested" (.obj (.cons "shakahls" (.str "https://cdn/x.m3u8?tok=1") .nil))
            .nil))) = .obj fields ∧ lookupField fields "referrer" = some (.str "https://r.example")) ∧
    (∃ i, firstOccurIdx ".m3u8".data ("https://cdn/x.m3u8?tok=1").data = some i ∧
      (processJson (.obj (.cons "referrer" (.str "https://r.example")
          (.cons "nested" (.obj (.cons "shakahls" (.str "https://cdn/x.m3u8?tok=1") .nil))
            .nil)))).manifestUrl = some ⟨("https://cdn/x.m3u8?tok=1").data.take (i + 5)⟩) :=
  ⟨c5_referrer_and_truncation.2.1 _ (.str "https://r.example") rfl,
   c5_referrer_and_truncation.2.2 _ "https://cdn/x.m3u8?tok=1" rfl (by decide) (by decide)⟩

/-- C10: a nonempty search result that does not contain the `.m3u8` marker
(which is exactly what a reached `shakahls` entry with such a string value
produces) is used as the manifest URL unchanged: no truncation is applied and
it is not treated as "no candidate found"; in particular this holds whenever a
top-level `shakahls` entry is reached with no earlier match. -/
theorem c10_plain_shakahls_value_kept :
    (∀ (fields : JFields) (v : String), find_m3u8_url (.obj fields) = some v →
      v ≠ "" → strContains v ".m3u8" = false →
      (processJson (.obj fields)).manifestUrl = some v) ∧
    (∀ (f1 f2 : JFields) (v : String), findInObj f1 = none →
      v ≠ "" → strContains v ".m3u8" = false →
      (processJson (.obj (f1.append (.cons "shakahls" (.str v) f2)))).manifestUrl = some v) := by
  have main : ∀ (fields : JFields) (v : String), find_m3u8_url (.obj fields) = some v →
      v ≠ "" → strContains v ".m3u8" = false →
      (processJson (.obj fields)).manifestUrl = some v := by
    intro fields v h1 h2 h3
    rw [processJson_manifest_eq fields v h1 h2, truncateAtM3u8_of_not_contains v h3]
  refine ⟨main, ?_⟩
  intro f1 f2 v h1 h2 h3
  have hf : find_m3u8_url (.obj (f1.append (.cons "shakahls" (.str v) f2))) = some v := by
    simpa [find_m3u8_url] using findInObj_append_first f1 f2 "shakahls" v h1 (Or.inl rfl)
  exact main _ v hf h2 h3

/-- C10 witness: a document whose only candidate is a `shakahls` entry with a
plain (marker-free) value; the value is reported unchanged. -/
theorem c10_witness :
    (processJson (.obj (.cons "n" (.num 3)
        (.cons "shakahls" (.str "plain-url") .nil)))).manifestUrl = some "plain-url" :=
  c10_plain_shakahls_value_kept.2 (.cons "n" (.num 3) .nil) .nil "plain-url"
    (by decide) (by decide) (by decide)

/-- C2: when the primary invocation raises the format-unavailable extractor
signal and the `best` fallback succeeds, `download` returns the
fallback-derived path and invokes the engine exactly twice (primary query,
then `best`); moreover every run makes at most two invocations (the retry is
never retried), and a run whose primary outcome is not a format-unavailable
extractor error makes exactly one invocation (no other failure kind triggers
the retry). -/
theorem c2_fallback_retry_once (tr : String → String)
    (extract : String → Except PyExc (Option InfoRecord)) (prepare : InfoRecord → String)
    (out fo codec msg : String) (info : InfoRecord)
    (h1 : extract (getFormatOptions fo codec).format = .error (.extractorError msg))
    (h2 : strContains msg "Requested format is not available" = true)
    (h3 : extract "best" = .ok (some info)) :
    (download tr extract prepare out fo codec).result
        = .ok (resultFile out (finalizeFilename info (prepare info))) ∧
    (download tr extract prepare out fo codec).calls
        = [(getFormatOptions fo codec).format, "best"] ∧
    (∀ ex2 : String → Except PyExc (Option InfoRecord),
      (download tr ex2 prepare out fo codec).calls.length ≤ 2) ∧
    (∀ ex2 : String → Except PyExc (Option InfoRecord),
      (∀ m, ex2 (getFormatOptions fo codec).format = .error (.extractorError m) →
        strContains m "Requested format is not available" = false) →
      (download tr ex2 prepare out fo codec).calls = [(getFormatOptions fo codec).format]) := by
  refine ⟨?_, ?_, ?_, ?_⟩
  · simp [download, attemptBody, h1, h2, h3]
  · simp [download, attemptBody, h1, h2, h3]
  · intro ex2
    unfold download
    rcases hA : attemptBody tr ex2 prepare out (getFormatOptions fo codec).format with e | r
    · cases e with
      | extractorError m =>
        by_cases hm : strContains m "Requested format is not available" = true
        · simp only [hA, hm, if_true]
          rcases hB : attemptBody tr ex2 prepare out "best" with e2 | r2 <;> simp
        · simp [hA, hm]
      | downloadError m => simp [hA]
      | generic m => simp [hA]
    · simp [hA]
  · intro ex2 hno
    unfold download
    rcases hA : attemptBody tr ex2 prepare out (getFormatOptions fo codec).format with e | r
    · cases e with
      | extractorError m =>
        have := hno m (attemptBody_extractorError tr ex2 prepare out _ m hA)
        simp [hA, this]
      | downloadError m => simp [hA]
      | generic m => simp [hA]
    · simp [hA]

/-- C2 witness: an engine failing the primary 720p/h264 query with the
format-unavailable signal and succeeding on `best`. -/
theorem c2_witness :
    (download getText
        (fun f => if f = "best" then .ok (some { ext := some "mp4" })
          else .error (.extractorError "Requested format is not available"))
        (fun _ => "Test Video.mp4") "./dl" "720" "h264").result = .ok "./dl/Test Video.mp4" ∧
    (download getText
        (fun f => if f = "best" then .ok (some { ext := some "mp4" })
          else .error (.extractorError "Requested format is not available"))
        (fun _ => "Test Video.mp4") "./dl" "720" "h264").calls.length = 2 := by
  obtain ⟨hr, hc, -, -⟩ := c2_fallback_retry_once getText
    (fun f => if f = "best" then .ok (some { ext := some "mp4" })
      else .error (.extractorError "Requested format is not available"))
    (fun _ => "Test Video.mp4") "./dl" "720" "h264"
    "Requested format is not available" { ext := some "mp4" }
    rfl (by decide) rfl
  exact ⟨hr.trans rfl, by rw [hc]; rfl⟩

/-- C3: at the failing input where the engine returns no info record, the
code first raises the distinct no-metadata message but its own catch-all
handler swallows it, so the caller sees exactly the same surfaced message as
for a generic failure — the distinct `NoMetadataReturned` kind of the claim
never reaches the caller, although a distinct localized message for it exists
in the code. -/
theorem c3_no_info_surfaced_as_generic :
    (download getText (fun _ => .ok none) (fun _ => "f.mp4") "out" "best" "h264").result
        = .error (getText "error_download_failed") ∧
    (download getText (fun _ => .error (.generic "boom")) (fun _ => "f.mp4")
        "out" "best" "h264").result = .error (getText "error_download_failed") ∧
    getText "error_no_video_info" ≠ getText "error_download_failed" := by
  exact ⟨rfl, rfl, by decide⟩

/-- C6: whenever the engine-prepared filename does not end with the info
record's final extension, `download` rewrites the filename's extension to
that extension before building the result, and the returned path is the
destination directory joined with the basename of the corrected filename —
on the primary success path and on the fallback success path alike. -/
theorem c6_extension_corrected (tr : String → String)
    (extract : String → Except PyExc (Option InfoRecord)) (prepare : InfoRecord → String)
    (out fo codec : String) (info : InfoRecord) (e : String)
    (h2 : info.ext = some e) (h3 : strEndsWith (prepare info) e = false) :
    (extract (getFormatOptions fo codec).format = .ok (some info) →
      (download tr extract prepare out fo codec).result
        = .ok (pathJoin out (basename (splitextRoot (prepare info) ++ "." ++ e)))) ∧
    (∀ msg, extract (getFormatOptions fo codec).format = .error (.extractorError msg) →
      strContains msg "Requested format is not available" = true →
      extract "best" = .ok (some info) →
      (download tr extract prepare out fo codec).result
        = .ok (pathJoin out (basename (splitextRoot (prepare info) ++ "." ++ e)))) := by
  constructor
  · intro h1
    simp [download, attemptBody, h1, resultFile, finalizeFilename, h2, h3]
  · intro msg h1 hm hb
    simp [download, attemptBody, h1, hm, hb, resultFile, finalizeFilename, h2, h3]

/-- C6 witness: prepared name `song.webm`, final extension `mp3`; the
returned path is `d/song.mp3`. -/
theorem c6_witness :
    (download getText (fun _ => .ok (some { ext := some "mp3" }))
        (fun _ => "song.webm") "d" "mp3" "h264").result = .ok "d/song.mp3" :=
  ((c6_extension_corrected getText (fun _ => .ok (some { ext := some "mp3" }))
      (fun _ => "song.webm") "d" "mp3" "h264" { ext := some "mp3" } "mp3"
      rfl (by decide)).1 rfl).trans rfl

/-- C4 counterexample: on an `error` event the hook does invoke the sink with
an explicit percent of 0, so a sink holding a previous percent of 50 is reset
to 0 — the claim that the percent value reported to the sink is not updated
fails (the message does carry the engine error text). -/
theorem c4_counterexample :
    percentAfter 50 (progressHook getText { status := "error", downloaded_bytes := 0,
                                            total_bytes := none, total_bytes_estimate := none,
                                            speed := none, eta := none, filename := "f",
                                            error := some "boom" }) = 0 ∧
    (0 : ℚ) ≠ 50 ∧
    progressHook getText { status := "error", downloaded_bytes := 0,
                           total_bytes := none, total_bytes_estimate := none,
                           speed := none, eta := none, filename := "f",
                           error := some "boom" } = some (0, "Ошибка: boom") := by
  exact ⟨rfl, by norm_num, by decide⟩

/-- C4 (amended): on every `error` event the sink is invoked with percent 0
(resetting any previously reported percent) and a message that embeds the
engine-reported error text verbatim in the localized error template (with a
localized unknown-error placeholder when the engine supplied none). -/
theorem c4_error_event_reports_zero (tr : String → String) (ev : RawEvent)
    (h : ev.status = "error") :
    progressHook tr ev
      = some (0, substKey (tr "status_error") "error" (ev.error.getD "Неизвестная ошибка")) := by
  simp [progressHook, h]

/-- C4 witness: the amended statement evaluated on a concrete error event. -/
theorem c4_witness :
    progressHook getText { status := "error", downloaded_bytes := 0,
                           total_bytes := none, total_bytes_estimate := none,
                           speed := none, eta := none, filename := "g",
                           error := some "socket reset" }
      = some (0, "Ошибка: socket reset") :=
  (c4_error_event_reports_zero getText
    { status := "error", downloaded_bytes := 0, total_bytes := none,
      total_bytes_estimate := none, speed := none, eta := none, filename := "g",
      error := some "socket reset" } rfl).trans (by decide)

/-- C7: on every `downloading` event the reported percent is
`downloaded_bytes / total_bytes × 100` when `total_bytes` is present and
positive, else `downloaded_bytes / total_bytes_estimate × 100` when that is
present and positive, else 0 — so no division by an absent, zero or negative
total is ever performed. -/
theorem c7_downloading_percent (tr : String → String) (ev : RawEvent)
    (h : ev.status = "downloading") :
    (∀ t : ℚ, ev.total_bytes = some t → 0 < t →
      (progressHook tr ev).map Prod.fst = some (ev.downloaded_bytes / t * 100)) ∧
    (∀ t : ℚ, (∀ u, ev.total_bytes = some u → u ≤ 0) →
      ev.total_bytes_estimate = some t → 0 < t →
      (progressHook tr ev).map Prod.fst = some (ev.downloaded_bytes / t * 100)) ∧
    ((∀ u, ev.total_bytes = some u → u ≤ 0) →
      (∀ u, ev.total_bytes_estimate = some u → u ≤ 0) →
      (progressHook tr ev).map Prod.fst = some 0) := by
  have posOpt_false : ∀ o : Option ℚ, (∀ u, o = some u → u ≤ 0) → posOpt o = false := by
    intro o ho
    cases o with
    | none => rfl
    | some u => simpa [posOpt] using ho u rfl
  have posOpt_true : ∀ t : ℚ, 0 < t → posOpt (some t) = true := by
    intro t ht
    simp [posOpt, ht]
  refine ⟨?_, ?_, ?_⟩
  · intro t ht hpos
    simp [progressHook, h, ht, posOpt_true t hpos]
  · intro t hno ht hpos
    simp [progressHook, h, posOpt_false _ hno, ht, posOpt_true t hpos]
  · intro hno hno2
    simp [progressHook, h, posOpt_false _ hno, posOpt_false _ hno2]

/-- C7 witness: 50 of 200 bytes with a known positive total reports 25%. -/
theorem c7_witness :
    (progressHook getText { status := "downloading", downloaded_bytes := 50,
                            total_bytes := some 200, total_bytes_estimate := none,
                            speed := none, eta := none, filename := "f",
                            error := none }).map Prod.fst = some 25 :=
  ((c7_downloading_percent getText
    { status := "downloading", downloaded_bytes := 50, total_bytes := some 200,
      total_bytes_estimate := none, speed := none, eta := none, filename := "f",
      error := none } rfl).1 200 rfl (by norm_num)).trans (by norm_num)

/-- C8: the resolver is total and pure — every (format_option, codec) pair
yields a non-empty format query, any unrecognized format_option yields
exactly the query of `best`, and identical inputs yield identical results. -/
theorem c8_resolver_total_and_pure :
    (∀ fo c : String, (getFormatOptions fo c).format ≠ "") ∧
    (∀ fo c : String, fo ∉ (["mp3", "m4a", "720", "1080", "480"] : List String) →
      getFormatOptions fo c = getFormatOptions "best" c) ∧
    (∀ fo c : String, getFormatOptions fo c = getFormatOptions fo c) := by
  refine ⟨?_, ?_, fun _ _ => rfl⟩
  · intro fo c
    simp only [getFormatOptions]
    split_ifs <;> decide
  · intro fo c h
    simp only [List.mem_cons, List.not_mem_nil, or_false, not_or] at h
    obtain ⟨h1, h2, h3, h4, h5⟩ := h
    simp [getFormatOptions, h1, h2, h3, h4, h5]

/-- C8 witness: the unrecognized tier `ultra` yields a non-empty query equal
to the query of `best`. -/
theorem c8_witness :
    (getFormatOptions "ultra" "h264").format ≠ "" ∧
    getFormatOptions "ultra" "h264" = getFormatOptions "best" "h264" :=
  ⟨c8_resolver_total_and_pure.1 "ultra" "h264",
   c8_resolver_total_and_pure.2.1 "ultra" "h264" (by decide)⟩

/-- C9: time formatting follows the three bands — `{seconds} sec` below one
minute, `{minutes} min {seconds} sec` below one hour via floor division by
60, and `{hours} hr {minutes} min` (seconds dropped) otherwise — and on the
spec's label table 30, 90 and 3661 seconds render as `30 сек`,
`1 мин 30 сек` and `1 ч 1 мин`. -/
theorem c9_format_time_bands :
    (∀ (tr : String → String) (s : ℕ), s < 60 →
      formatTime tr s = substKey (tr "time_seconds") "seconds" (toString s)) ∧
    (∀ (tr : String → String) (s m r : ℕ), 60 ≤ s → s < 3600 → s = 60 * m + r → r < 60 →
      formatTime tr s
        = substKey (substKey (tr "time_minutes_seconds") "minutes" (toString m))
            "seconds" (toString r)) ∧
    (∀ (tr : String → String) (s hh mm r : ℕ), 3600 ≤ s →
      s = 3600 * hh + 60 * mm + r → mm < 60 → r < 60 →
      formatTime tr s
        = substKey (substKey (tr "time_hours_minutes") "hours" (toString hh))
            "minutes" (toString mm)) ∧
    formatTime specTimeTr 30 = "30 сек" ∧
    formatTime specTimeTr 90 = "1 мин 30 сек" ∧
    formatTime specTimeTr 3661 = "1 ч 1 мин" := by
  refine ⟨?_, ?_, ?_, by decide, by decide, by decide⟩
  · intro tr s h
    simp [formatTime, h]
  · intro tr s m r h1 h2 hd hr
    have hm : s / 60 = m := by omega
    have hs : s % 60 = r := by omega
    simp [formatTime, show ¬ s < 60 by omega, h2, hm, hs]
  · intro tr s hh mm r h1 hd hm hr
    have hq : s / 3600 = hh := by omega
    have hmod : s % 3600 / 60 = mm := by omega
    simp [formatTime, show ¬ s < 60 by omega, show ¬ s < 3600 by omega, hq, hmod]

/-- C9 witness: the band statements applied at 45 and 150 seconds. -/
theorem c9_witness :
    formatTime specTimeTr 45 = "45 сек" ∧ formatTime specTimeTr 150 = "2 мин 30 сек" :=
  ⟨(c9_format_time_bands.1 specTimeTr 45 (by decide)).trans (by decide),
   (c9_format_time_bands.2.1 specTimeTr 150 2 30 (by decide) (by decide) (by decide)
      (by decide)).trans (by decide)⟩

end KSP

